import Mathlib

/-!
Verification development for the PathPal backend.

This file gives a shallow embedding of the two stateful subsystems of the
repository — the WebSocket connection registry (`ConnectionManager` in
`features/websockets/connection_manager.py`) and the emergency-alert
pipeline (`process_emergency_alert` in `features/alerts/services.py`,
together with `openai_client.py` and `email_service.py`) — and proves or
refutes the specified properties about them.

Python dicts are embedded as association lists with Python dict semantics
(unique keys, in-place replacement on repeated insertion); external calls
(OpenAI, SMTP, the database, WebSocket sends) are embedded as explicit
outcome parameters, so every run of the embedded code is a pure value that
records which calls happened, what was sent and what was persisted.
-/

/-- Lookup in an association list standing for a Python dict: the value at
the first occurrence of the key, `d.get(k)`. -/
def dlookup {α : Type} (k : String) : List (String × α) → Option α
  | [] => none
  | (k', v) :: rest => if k' = k then some v else dlookup k rest

/-- Insertion with Python dict semantics, `d[k] = v`: replace the value in
place when the key is present, append a new entry otherwise. -/
def dinsert {α : Type} (k : String) (v : α) : List (String × α) → List (String × α)
  | [] => [(k, v)]
  | (k', v') :: rest => if k' = k then (k, v) :: rest else (k', v') :: dinsert k v rest

/-- Key removal, Python `del d[k]` / `d.pop(k, None)`: drop the first entry
with the given key. -/
def derase {α : Type} (k : String) : List (String × α) → List (String × α)
  | [] => []
  | (k', v') :: rest => if k' = k then rest else (k', v') :: derase k rest

/-- Key membership, Python `k in d`. -/
def containsKey {α : Type} (k : String) (m : List (String × α)) : Bool :=
  (dlookup k m).isSome

/-- A dict never has two entries with the same key. -/
def nodupKeys {α : Type} (m : List (String × α)) : Prop :=
  (m.map Prod.fst).Nodup

/-- Connection registry state of `ConnectionManager.__init__`:
`trip_connections : dict[str, dict[str, WebSocket]]` maps a trip id to the
dict of its members' live connection handles (handles embedded as `Nat`),
and `user_trip_mapping : dict[str, str]` maps a user id to the trip the
user is registered to. -/
structure ConnectionManager where
  trip_connections : List (String × List (String × Nat))
  user_trip_mapping : List (String × String)
deriving DecidableEq

/-- The freshly constructed manager: both dicts empty. -/
def ConnectionManager.empty : ConnectionManager := ⟨[], []⟩

/-- `ConnectionManager.connect(websocket, trip_id, user_id)`: create the
trip's member dict when absent, store the handle under the user id, and
point `user_trip_mapping[user_id]` at the trip. -/
def ConnectionManager.connect (cm : ConnectionManager) (websocket : Nat)
    (trip_id user_id : String) : ConnectionManager :=
  let tc :=
    if containsKey trip_id cm.trip_connections then cm.trip_connections
    else dinsert trip_id [] cm.trip_connections
  let room := (dlookup trip_id tc).getD []
  { trip_connections := dinsert trip_id (dinsert user_id websocket room) tc
    user_trip_mapping := dinsert user_id trip_id cm.user_trip_mapping }

/-- `ConnectionManager.disconnect(user_id)`: pop the user's trip from
`user_trip_mapping`; the Python guard `if not trip_id` returns early both
when the pop found nothing and when the popped trip id is the empty string
(a falsy value); otherwise remove the user from the trip's member dict and
delete the trip when its member dict became empty. -/
def ConnectionManager.disconnect (cm : ConnectionManager) (user_id : String) :
    ConnectionManager :=
  match dlookup user_id cm.user_trip_mapping with
  | none => cm
  | some trip_id =>
    let utm := derase user_id cm.user_trip_mapping
    if trip_id = "" then { cm with user_trip_mapping := utm }
    else if containsKey trip_id cm.trip_connections then
      let room := derase user_id ((dlookup trip_id cm.trip_connections).getD [])
      if room.isEmpty then
        { trip_connections := derase trip_id cm.trip_connections
          user_trip_mapping := utm }
      else
        { trip_connections := dinsert trip_id room cm.trip_connections
          user_trip_mapping := utm }
    else { cm with user_trip_mapping := utm }

/-- `ConnectionManager.broadcast_to_trip(message, trip_id, exclude_user)`:
return unchanged when the trip is unknown; otherwise iterate over a copy of
the trip's member dict, skip the excluded user, attempt each send, collect
the users whose send raised, and disconnect those users after the pass.
`sendOk user handle` embeds whether `websocket.send_text` succeeds; the
result pairs the post-broadcast state with the list of attempted sends. -/
def ConnectionManager.broadcast_to_trip (cm : ConnectionManager) (message : String)
    (trip_id : String) (exclude_user : Option String) (sendOk : String → Nat → Bool) :
    ConnectionManager × List (String × Nat) :=
  let _ := message
  if containsKey trip_id cm.trip_connections then
    let connections := (dlookup trip_id cm.trip_connections).getD []
    let attempted := connections.filter (fun p => decide (some p.1 ≠ exclude_user))
    let disconnected_users := (attempted.filter (fun p => !(sendOk p.1 p.2))).map Prod.fst
    (disconnected_users.foldl (fun s u => s.disconnect u) cm, attempted)
  else (cm, [])

/-- `ConnectionManager.get_trip_participants(trip_id)`: the keys of the
trip's member dict, `[]` for an unknown trip. -/
def ConnectionManager.get_trip_participants (cm : ConnectionManager)
    (trip_id : String) : List String :=
  ((dlookup trip_id cm.trip_connections).getD []).map Prod.fst

/-- One registry operation of the spec's connect/disconnect sequences. -/
inductive RegistryOp
  | connect (websocket : Nat) (trip_id user_id : String)
  | disconnect (user_id : String)
deriving DecidableEq

/-- Apply one registry operation. -/
def applyOp (cm : ConnectionManager) : RegistryOp → ConnectionManager
  | .connect w t u => cm.connect w t u
  | .disconnect u => cm.disconnect u

/-- Run a sequence of registry operations from a given state. -/
def applyOps (ops : List RegistryOp) (cm : ConnectionManager) : ConnectionManager :=
  ops.foldl applyOp cm

/-- The trips whose member dict currently contains the user. -/
def memberTrips (u : String) (cm : ConnectionManager) : List String :=
  (cm.trip_connections.filter (fun p => containsKey u p.2)).map Prod.fst

/-- First half of the spec's registry invariant: a trip identifier is a key
of `tripMembers` iff its member map is non-empty. -/
def registryInvariantA (cm : ConnectionManager) : Prop :=
  ∀ t, containsKey t cm.trip_connections = true ↔
    ∃ m, dlookup t cm.trip_connections = some m ∧ m ≠ []

/-- Second half of the spec's registry invariant: a user identifier is a key
of `userTrip` iff that user appears in exactly one trip's member map. -/
def registryInvariantB (cm : ConnectionManager) : Prop :=
  ∀ u, containsKey u cm.user_trip_mapping = true ↔ (memberTrips u cm).length = 1

/-- The registry invariant exactly as the spec states it. -/
def registryClaim (cm : ConnectionManager) : Prop :=
  registryInvariantA cm ∧ registryInvariantB cm

/-- Well-formedness of a registry state: dict keys are unique, member maps of
known trips are non-empty, every registered trip id is non-empty, and a user
is registered to a trip in `user_trip_mapping` exactly when the user appears
in that trip's member map. This holds in every state the intended usage can
reach and is what the preservation lemmas below maintain. -/
structure RegistryInv (cm : ConnectionManager) : Prop where
  tc_nodup : nodupKeys cm.trip_connections
  utm_nodup : nodupKeys cm.user_trip_mapping
  room_nodup : ∀ t m, dlookup t cm.trip_connections = some m → nodupKeys m
  room_ne : ∀ t m, dlookup t cm.trip_connections = some m → m ≠ []
  trip_ne : ∀ u t, dlookup u cm.user_trip_mapping = some t → t ≠ ""
  mem_iff : ∀ u t, dlookup u cm.user_trip_mapping = some t ↔
    ∃ m, dlookup t cm.trip_connections = some m ∧ containsKey u m = true

/-- The restriction on a single operation under which the registry invariant
is preserved: a connect must use a non-empty trip id and must not re-target a
user who is currently registered to a different trip. -/
def goodOp (cm : ConnectionManager) : RegistryOp → Bool
  | .connect _ t u =>
      decide (t ≠ "") &&
        (decide (dlookup u cm.user_trip_mapping = none) ||
          decide (dlookup u cm.user_trip_mapping = some t))
  | .disconnect _ => true

/-- A sequence of registry operations each of which is good in the state in
which it runs. -/
def goodOps : ConnectionManager → List RegistryOp → Bool
  | _, [] => true
  | cm, op :: rest => goodOp cm op && goodOps (applyOp cm op) rest

/-- Python's `str.strip()`: drop leading and trailing whitespace characters.
Embedded over the character list so that it evaluates in proofs. -/
def pyStrip (s : String) : String :=
  ⟨((s.data.dropWhile Char.isWhitespace).reverse.dropWhile Char.isWhitespace).reverse⟩

/-- Outcome of one raw external call: a Python exception is either a
`TimeoutError` from `asyncio.wait_for` or any other exception with its
string rendering. -/
inductive PyError
  | timeoutExc
  | otherExc (msg : String)
deriving DecidableEq

/-- The Alert database record as built by `process_emergency_alert` (fields
that the pipeline fills identically on every path — user id, coordinates,
timestamps — are omitted; `contacts_notified` is the length of the contact
email list). -/
structure Alert where
  transcript : String
  ai_analysis : String
  contacts_notified : Nat
  processing_status : String
  error_details : Option String
deriving DecidableEq

/-- Which notification method of `EmergencyEmailService` was called:
`send_emergency_alert` (rich) or `send_fallback_alert` (basic). -/
inductive NotificationCall
  | rich
  | basic
deriving DecidableEq

/-- Environment of one `process_emergency_alert` invocation: the user's
emergency-contact email list and the outcome each external collaborator
would produce if called (the OpenAI Whisper call, the OpenAI chat call, the
rich email send, the success-record commit, the basic email send, the
fallback-record commit). Errors carry the exception's string rendering. -/
structure AlertEnv where
  contacts : List String
  transcribeCall : Except PyError String
  analyzeCall : Except PyError String
  sendRichCall : Except String Unit
  commitSuccessCall : Except String Unit
  sendBasicCall : Except String Unit
  commitFallbackCall : Except String Unit

/-- `OpenAIAlertClient.transcribe_audio`: return the stripped response text
(`response.strip() if response else ""`), converting a timeout into
`TranscriptionError("Audio transcription timed out")` and any other
exception into `TranscriptionError(f"Transcription failed: {e}")`. -/
def transcribe_audio (call : Except PyError String) : Except String String :=
  match call with
  | .ok response => .ok (if response = "" then "" else pyStrip response)
  | .error .timeoutExc => .error "Audio transcription timed out"
  | .error (.otherExc m) => .error ("Transcription failed: " ++ m)

/-- `OpenAIAlertClient.analyze_emergency_transcript`: when the transcript is
empty or whitespace-only (`not transcript or transcript.strip() == ""`),
skip the chat call and return the fixed unclear-situation summary;
otherwise call the model and return its stripped reply, converting a
timeout into `AnalysisError("Emergency analysis timed out")` and any other
exception into `AnalysisError(f"Analysis failed: {e}")`. The boolean
records whether the external chat call was made. -/
def analyze_emergency_transcript (call : Except PyError String) (transcript : String) :
    Except String String × Bool :=
  if transcript = "" ∨ pyStrip transcript = "" then
    (Except.ok "The situation is unclear from the audio.", false)
  else
    match call with
    | .ok content => (.ok (pyStrip content), true)
    | .error .timeoutExc => (.error "Emergency analysis timed out", true)
    | .error (.otherExc m) => (.error ("Analysis failed: " ++ m), true)

/-- Trace of one `process_emergency_alert` invocation: the returned status
string or the raised error's description, the notification calls made in
order, the Alert records committed, and whether the transcriber and the
analyzer's external call were invoked. -/
structure PipelineRun where
  outcome : Except String String
  notifications : List NotificationCall
  persisted : List Alert
  transcriberCalled : Bool
  analyzerCalled : Bool

/-- The fail-safe branch of `process_emergency_alert` (`except Exception as
e`): call `send_fallback_alert`; when it raises, or when committing the
fallback record raises, the inner `except` raises
`AlertProcessingError(f"Complete alert processing failure: {fallback_error}")`
with nothing persisted; otherwise persist the fallback Alert (empty
transcript, fixed "AI processing unavailable" analysis, `str(e)` as error
detail) and return the fallback outcome. `notifs` are the notification
calls already made inside the `try` block and `aCalled` whether the
analyzer's external call happened there. -/
def fallback_branch (env : AlertEnv) (e : String) (notifs : List NotificationCall)
    (aCalled : Bool) : PipelineRun :=
  match env.sendBasicCall with
  | .error fe =>
      ⟨.error ("Complete alert processing failure: " ++ fe), notifs ++ [.basic], [],
        true, aCalled⟩
  | .ok _ =>
    match env.commitFallbackCall with
    | .error fe =>
        ⟨.error ("Complete alert processing failure: " ++ fe), notifs ++ [.basic], [],
          true, aCalled⟩
    | .ok _ =>
        ⟨.ok "fallback", notifs ++ [.basic],
          [⟨"", "AI processing unavailable", env.contacts.length, "fallback", some e⟩],
          true, aCalled⟩

/-- `process_emergency_alert`: raise `AlertProcessingError("No emergency
contacts configured")` when the contact list is empty; otherwise run steps
1-4 (transcribe, analyze, rich notification, success-record commit) inside
one `try` whose `except Exception` enters `fallback_branch` with the
raised error. -/
def process_emergency_alert (env : AlertEnv) : PipelineRun :=
  if env.contacts = [] then
    ⟨.error "No emergency contacts configured", [], [], false, false⟩
  else
    match transcribe_audio env.transcribeCall with
    | .error e => fallback_branch env e [] false
    | .ok transcript =>
      match (analyze_emergency_transcript env.analyzeCall transcript).1 with
      | .error e =>
          fallback_branch env e [] (analyze_emergency_transcript env.analyzeCall transcript).2
      | .ok ai_analysis =>
        match env.sendRichCall with
        | .error e =>
            fallback_branch env e [.rich]
              (analyze_emergency_transcript env.analyzeCall transcript).2
        | .ok _ =>
          match env.commitSuccessCall with
          | .error e =>
              fallback_branch env e [.rich]
                (analyze_emergency_transcript env.analyzeCall transcript).2
          | .ok _ =>
              ⟨.ok "success", [.rich],
                [⟨transcript, ai_analysis, env.contacts.length, "success", none⟩],
                true, (analyze_emergency_transcript env.analyzeCall transcript).2⟩

/-- Does an embedded call outcome stand for a raised exception? -/
def exceptFailed {ε α : Type} : Except ε α → Bool
  | .error _ => true
  | .ok _ => false

/-- All four steps of the `try` block of `process_emergency_alert` succeed:
transcription, analysis, the rich notification, and the success-record
commit. -/
def primary_steps_ok (env : AlertEnv) : Prop :=
  ∃ t a, transcribe_audio env.transcribeCall = .ok t ∧
    (analyze_emergency_transcript env.analyzeCall t).1 = .ok a ∧
    env.sendRichCall = .ok () ∧ env.commitSuccessCall = .ok ()

/-- One message received while a Trip Gateway Session is in the Joined
state: either text that `json.loads` rejects, or a parsed JSON object with
its optional `type` field and whether its payload validates as a
`LocationUpdateMessage` (in-range coordinates of the right shape). -/
inductive Received
  | notJson
  | jsonMsg (msgType : Option String) (payloadValid : Bool)
deriving DecidableEq

/-- A structured error reply sent back on the same connection. -/
structure Reply where
  msgType : String
  error : String
deriving DecidableEq

/-- `MessageType.LOCATION_UPDATE` from `websockets/models.py`. -/
def MessageTypeLocationUpdate : String := "location_update"

/-- `MessageType.ERROR` from `websockets/models.py`. -/
def MessageTypeError : String := "error"

/-- One iteration of the message loop of `websocket_endpoint`: a
`json.JSONDecodeError` is answered with the "Invalid JSON format" error
reply; a well-formed location update is delegated to the broadcast service
(whose failures are logged, not raised); a payload that fails validation
hits the generic `except Exception` and is answered with "Message
processing failed"; any other type is answered with "Unknown message
type". Every branch stays in the loop. -/
def message_loop_body : Received → List Reply × Bool
  | .notJson => ([⟨MessageTypeError, "Invalid JSON format"⟩], true)
  | .jsonMsg mt valid =>
    if mt = some MessageTypeLocationUpdate then
      if valid then ([], true)
      else ([⟨MessageTypeError, "Message processing failed"⟩], true)
    else ([⟨MessageTypeError, "Unknown message type"⟩], true)

/-- Run the message loop over the session's incoming messages, collecting
the error replies sent; the loop stops early only if an iteration says not
to continue. -/
def message_loop : List Received → List Reply
  | [] => []
  | msg :: rest =>
    let step := message_loop_body msg
    if step.2 then step.1 ++ message_loop rest else step.1

theorem dlookup_dinsert_self {α : Type} (k : String) (v : α) (m : List (String × α)) :
    dlookup k (dinsert k v m) = some v := by
  induction m with
  | nil => simp [dinsert, dlookup]
  | cons p rest ih =>
    obtain ⟨k', v'⟩ := p
    by_cases h : k' = k
    · simp [dinsert, dlookup, h]
    · simp [dinsert, dlookup, h, ih]

theorem dlookup_dinsert_ne {α : Type} {k k' : String} (v : α) (m : List (String × α))
    (h : k' ≠ k) : dlookup k' (dinsert k v m) = dlookup k' m := by
  induction m with
  | nil => simp [dinsert, dlookup, Ne.symm h]
  | cons p rest ih =>
    obtain ⟨k₀, v₀⟩ := p
    by_cases hk : k₀ = k
    · subst hk
      simp [dinsert, dlookup, Ne.symm h]
    · simp only [dinsert, if_neg hk, dlookup]
      by_cases hk' : k₀ = k'
      · simp [hk']
      · simp [hk', ih]

theorem dlookup_derase_ne {α : Type} {k k' : String} (m : List (String × α))
    (h : k' ≠ k) : dlookup k' (derase k m) = dlookup k' m := by
  induction m with
  | nil => simp [derase]
  | cons p rest ih =>
    obtain ⟨k₀, v₀⟩ := p
    by_cases hk : k₀ = k
    · subst hk
      simp [derase, dlookup, Ne.symm h]
    · simp only [derase, if_neg hk, dlookup]
      by_cases hk' : k₀ = k'
      · simp [hk']
      · simp [hk', ih]

theorem dlookup_eq_none_of_not_mem_keys {α : Type} {k : String} {m : List (String × α)}
    (h : k ∉ m.map Prod.fst) : dlookup k m = none := by
  induction m with
  | nil => simp [dlookup]
  | cons p rest ih =>
    obtain ⟨k₀, v₀⟩ := p
    simp only [List.map_cons, List.mem_cons] at h
    push_neg at h
    simp [dlookup, Ne.symm h.1, ih h.2]

theorem dlookup_derase_self {α : Type} {k : String} {m : List (String × α)}
    (h : nodupKeys m) : dlookup k (derase k m) = none := by
  induction m with
  | nil => simp [derase, dlookup]
  | cons p rest ih =>
    obtain ⟨k₀, v₀⟩ := p
    simp only [nodupKeys, List.map_cons, List.nodup_cons] at h
    by_cases hk : k₀ = k
    · subst hk
      simp only [derase, if_pos rfl]
      exact dlookup_eq_none_of_not_mem_keys h.1
    · simp [derase, dlookup, hk, ih h.2]

theorem keys_dinsert {α : Type} (k : String) (v : α) (m : List (String × α)) :
    ((dinsert k v m).map Prod.fst) =
      if k ∈ m.map Prod.fst then m.map Prod.fst else m.map Prod.fst ++ [k] := by
  induction m with
  | nil => simp [dinsert]
  | cons p rest ih =>
    obtain ⟨k₀, v₀⟩ := p
    by_cases hk : k₀ = k
    · subst hk
      simp [dinsert]
    · simp only [dinsert, if_neg hk, List.map_cons, List.mem_cons, ih, Ne.symm hk, false_or]
      by_cases hmem : k ∈ rest.map Prod.fst
      · simp [hmem]
      · simp [hmem]

theorem nodupKeys_dinsert {α : Type} {k : String} {v : α} {m : List (String × α)}
    (h : nodupKeys m) : nodupKeys (dinsert k v m) := by
  unfold nodupKeys at h ⊢
  rw [keys_dinsert]
  by_cases hmem : k ∈ m.map Prod.fst
  · simpa [hmem] using h
  · rw [if_neg hmem, List.nodup_append]
    refine ⟨h, List.nodup_singleton k, fun x hx hxk => ?_⟩
    rw [List.mem_singleton] at hxk
    exact hmem (hxk ▸ hx)

theorem keys_derase_sublist {α : Type} (k : String) (m : List (String × α)) :
    ((derase k m).map Prod.fst).Sublist (m.map Prod.fst) := by
  induction m with
  | nil => simp [derase]
  | cons p rest ih =>
    obtain ⟨k₀, v₀⟩ := p
    by_cases hk : k₀ = k
    · simp only [derase, if_pos hk, List.map_cons]
      exact List.Sublist.cons _ (List.Sublist.refl _)
    · simpa only [derase, if_neg hk, List.map_cons] using ih.cons₂ k₀

theorem nodupKeys_derase {α : Type} {k : String} {m : List (String × α)}
    (h : nodupKeys m) : nodupKeys (derase k m) :=
  (keys_derase_sublist k m).nodup h

theorem dinsert_ne_nil {α : Type} (k : String) (v : α) (m : List (String × α)) :
    dinsert k v m ≠ [] := by
  cases m with
  | nil => simp [dinsert]
  | cons p rest =>
    obtain ⟨k₀, v₀⟩ := p
    by_cases hk : k₀ = k <;> simp [dinsert, hk]

theorem mem_keys_iff_dlookup {α : Type} (k : String) (m : List (String × α)) :
    k ∈ m.map Prod.fst ↔ (dlookup k m).isSome = true := by
  induction m with
  | nil => simp [dlookup]
  | cons p rest ih =>
    obtain ⟨k₀, v₀⟩ := p
    by_cases hk : k₀ = k
    · simp [dlookup, hk]
    · simp [dlookup, hk, Ne.symm hk, ih]

theorem dlookup_mem {α : Type} {k : String} {v : α} {m : List (String × α)}
    (h : dlookup k m = some v) : (k, v) ∈ m := by
  induction m with
  | nil => simp [dlookup] at h
  | cons p rest ih =>
    obtain ⟨k₀, v₀⟩ := p
    by_cases hk : k₀ = k
    · subst hk
      have hv : v₀ = v := by simpa [dlookup] using h
      subst hv
      exact List.mem_cons_self _ _
    · simp only [dlookup, if_neg hk] at h
      exact List.mem_cons_of_mem _ (ih h)

theorem mem_dlookup {α : Type} {k : String} {v : α} {m : List (String × α)}
    (hnd : nodupKeys m) (h : (k, v) ∈ m) : dlookup k m = some v := by
  induction m with
  | nil => simp at h
  | cons p rest ih =>
    obtain ⟨k₀, v₀⟩ := p
    simp only [nodupKeys, List.map_cons, List.nodup_cons] at hnd
    rcases List.mem_cons.mp h with heq | hmem
    · rw [Prod.mk.injEq] at heq
      simp [dlookup, heq.1, heq.2]
    · have hk : k₀ ≠ k := by
        intro hc
        exact hnd.1 (hc ▸ (List.mem_map_of_mem Prod.fst hmem))
      simp [dlookup, hk, ih hnd.2 hmem]

theorem derase_eq_nil_cases {α : Type} {k : String} {m : List (String × α)}
    (h : derase k m = []) : m = [] ∨ ∃ v, m = [(k, v)] := by
  cases m with
  | nil => exact Or.inl rfl
  | cons p rest =>
    obtain ⟨k₀, v₀⟩ := p
    by_cases hk : k₀ = k
    · subst hk
      have hr : rest = [] := by simpa [derase] using h
      exact Or.inr ⟨v₀, by rw [hr]⟩
    · simp [derase, hk] at h

theorem containsKey_dinsert_self {α : Type} (k : String) (v : α) (m : List (String × α)) :
    containsKey k (dinsert k v m) = true := by
  simp [containsKey, dlookup_dinsert_self]

theorem containsKey_dinsert_ne {α : Type} {k k' : String} (v : α) (m : List (String × α))
    (h : k' ≠ k) : containsKey k' (dinsert k v m) = containsKey k' m := by
  simp [containsKey, dlookup_dinsert_ne v m h]

theorem containsKey_derase_ne {α : Type} {k k' : String} (m : List (String × α))
    (h : k' ≠ k) : containsKey k' (derase k m) = containsKey k' m := by
  simp [containsKey, dlookup_derase_ne m h]

theorem containsKey_derase_self {α : Type} {k : String} {m : List (String × α)}
    (h : nodupKeys m) : containsKey k (derase k m) = false := by
  simp [containsKey, dlookup_derase_self h]

theorem containsKey_eq_false_iff {α : Type} (k : String) (m : List (String × α)) :
    containsKey k m = false ↔ dlookup k m = none := by
  cases h : dlookup k m <;> simp [containsKey, h]

theorem connect_utm_eq (cm : ConnectionManager) (w : Nat) (t u : String) :
    (cm.connect w t u).user_trip_mapping = dinsert u t cm.user_trip_mapping := rfl

theorem connect_tc_lookup (cm : ConnectionManager) (w : Nat) (t u : String) (t' : String) :
    dlookup t' (cm.connect w t u).trip_connections =
      if t' = t then some (dinsert u w ((dlookup t cm.trip_connections).getD []))
      else dlookup t' cm.trip_connections := by
  unfold ConnectionManager.connect
  by_cases hc : containsKey t cm.trip_connections = true
  · by_cases ht' : t' = t
    · subst ht'
      simp [hc, dlookup_dinsert_self]
    · simp [hc, ht', dlookup_dinsert_ne _ _ ht']
  · have hc' : containsKey t cm.trip_connections = false := by
      cases h : containsKey t cm.trip_connections
      · rfl
      · exact absurd h hc
    have hnone : dlookup t cm.trip_connections = none :=
      (containsKey_eq_false_iff t cm.trip_connections).mp hc'
    by_cases ht' : t' = t
    · subst ht'
      simp [hc', hnone, dlookup_dinsert_self]
    · simp [hc', ht', hnone, dlookup_dinsert_ne _ _ ht']

theorem connect_utm_lookup (cm : ConnectionManager) (w : Nat) (t u : String) (u' : String) :
    dlookup u' (cm.connect w t u).user_trip_mapping =
      if u' = u then some t else dlookup u' cm.user_trip_mapping := by
  rw [connect_utm_eq]
  by_cases hu : u' = u
  · subst hu
    simp [dlookup_dinsert_self]
  · simp [hu, dlookup_dinsert_ne _ _ hu]

theorem disconnect_absent (cm : ConnectionManager) (u : String)
    (h : dlookup u cm.user_trip_mapping = none) : cm.disconnect u = cm := by
  simp [ConnectionManager.disconnect, h]

theorem disconnect_falsy (cm : ConnectionManager) (u : String)
    (h : dlookup u cm.user_trip_mapping = some "") :
    cm.disconnect u = { cm with user_trip_mapping := derase u cm.user_trip_mapping } := by
  simp [ConnectionManager.disconnect, h]

theorem disconnect_no_room (cm : ConnectionManager) (u t : String)
    (h : dlookup u cm.user_trip_mapping = some t) (ht : t ≠ "")
    (hr : dlookup t cm.trip_connections = none) :
    cm.disconnect u = { cm with user_trip_mapping := derase u cm.user_trip_mapping } := by
  simp [ConnectionManager.disconnect, h, ht, containsKey, hr]

theorem disconnect_room (cm : ConnectionManager) (u t : String) (m : List (String × Nat))
    (h : dlookup u cm.user_trip_mapping = some t) (ht : t ≠ "")
    (hr : dlookup t cm.trip_connections = some m) :
    cm.disconnect u =
      if (derase u m).isEmpty then
        { trip_connections := derase t cm.trip_connections
          user_trip_mapping := derase u cm.user_trip_mapping }
      else
        { trip_connections := dinsert t (derase u m) cm.trip_connections
          user_trip_mapping := derase u cm.user_trip_mapping } := by
  simp [ConnectionManager.disconnect, h, ht, containsKey, hr]

theorem registryInv_empty : RegistryInv ConnectionManager.empty := by
  refine ⟨?_, ?_, ?_, ?_, ?_, ?_⟩ <;>
    simp [ConnectionManager.empty, nodupKeys, dlookup]

theorem connect_inv {cm : ConnectionManager} (hinv : RegistryInv cm) (w : Nat) {t u : String}
    (ht : t ≠ "")
    (hu : dlookup u cm.user_trip_mapping = none ∨ dlookup u cm.user_trip_mapping = some t) :
    RegistryInv (cm.connect w t u) := by
  have htc := connect_tc_lookup cm w t u
  have hutm := connect_utm_lookup cm w t u
  have hroom_nodup : nodupKeys ((dlookup t cm.trip_connections).getD []) := by
    cases hr : dlookup t cm.trip_connections with
    | none => simp [nodupKeys]
    | some m0 => simpa using hinv.room_nodup t m0 hr
  refine ⟨?_, ?_, ?_, ?_, ?_, ?_⟩
  · -- keys of trip_connections stay unique
    unfold ConnectionManager.connect
    by_cases hc : containsKey t cm.trip_connections = true
    · simp only [hc, if_true]
      exact nodupKeys_dinsert hinv.tc_nodup
    · simp only [hc, Bool.false_eq_true, if_false]
      exact nodupKeys_dinsert (nodupKeys_dinsert hinv.tc_nodup)
  · rw [connect_utm_eq]
    exact nodupKeys_dinsert hinv.utm_nodup
  · -- member maps keep unique keys
    intro t' m' hm'
    rw [htc t'] at hm'
    by_cases ht' : t' = t
    · rw [if_pos ht'] at hm'
      cases hm'
      exact nodupKeys_dinsert hroom_nodup
    · rw [if_neg ht'] at hm'
      exact hinv.room_nodup t' m' hm'
  · -- member maps stay non-empty
    intro t' m' hm'
    rw [htc t'] at hm'
    by_cases ht' : t' = t
    · rw [if_pos ht'] at hm'
      cases hm'
      exact dinsert_ne_nil _ _ _
    · rw [if_neg ht'] at hm'
      exact hinv.room_ne t' m' hm'
  · -- registered trip ids stay non-empty
    intro u' t' hm'
    rw [hutm u'] at hm'
    by_cases hu' : u' = u
    · rw [if_pos hu'] at hm'
      cases hm'
      exact ht
    · rw [if_neg hu'] at hm'
      exact hinv.trip_ne u' t' hm'
  · -- registration matches membership
    intro u' t'
    rw [hutm u', htc t']
    by_cases hu' : u' = u
    · rw [if_pos hu']
      by_cases ht' : t' = t
      · subst ht'
        rw [if_pos rfl]
        constructor
        · intro _
          exact ⟨_, rfl, by simpa [hu'] using containsKey_dinsert_self u w _⟩
        · intro _
          rfl
      · rw [if_neg ht']
        constructor
        · intro hsome
          exact absurd (Option.some.inj hsome).symm ht'
        · rintro ⟨m', hm', hck⟩
          have := (hinv.mem_iff u' t').mpr ⟨m', hm', hck⟩
          rw [hu'] at this
          rcases hu with hnone | hsome
          · rw [hnone] at this
            cases this
          · rw [hsome] at this
            exact absurd (Option.some.inj this).symm ht'
    · rw [if_neg hu']
      by_cases ht' : t' = t
      · subst ht'
        rw [if_pos rfl]
        have hck : containsKey u' (dinsert u w ((dlookup t' cm.trip_connections).getD [])) =
            containsKey u' ((dlookup t' cm.trip_connections).getD []) :=
          containsKey_dinsert_ne _ _ hu'
        constructor
        · intro hsome
          obtain ⟨m0, hm0, hck0⟩ := (hinv.mem_iff u' t').mp hsome
          refine ⟨_, rfl, ?_⟩
          rw [hck, hm0]
          simpa using hck0
        · rintro ⟨m', hm', hckm⟩
          cases hm'
          rw [hck] at hckm
          cases hr : dlookup t' cm.trip_connections with
          | none => rw [hr] at hckm; simp [containsKey, dlookup] at hckm
          | some m0 =>
            rw [hr] at hckm
            exact (hinv.mem_iff u' t').mpr ⟨m0, hr, by simpa using hckm⟩
      · rw [if_neg ht']
        exact hinv.mem_iff u' t'

theorem disconnect_inv {cm : ConnectionManager} (hinv : RegistryInv cm) (u : String) :
    RegistryInv (cm.disconnect u) := by
  cases hmu : dlookup u cm.user_trip_mapping with
  | none =>
    rw [disconnect_absent cm u hmu]
    exact hinv
  | some t =>
    have ht : t ≠ "" := hinv.trip_ne u t hmu
    obtain ⟨m, hm, hcm⟩ := (hinv.mem_iff u t).mp hmu
    have hmnd : nodupKeys m := hinv.room_nodup t m hm
    rw [disconnect_room cm u t m hmu ht hm]
    by_cases hempty : (derase u m).isEmpty = true
    · rw [if_pos hempty]
      have hnil : derase u m = [] := by simpa using hempty
      have hmshape : ∃ v, m = [(u, v)] := by
        rcases derase_eq_nil_cases hnil with hmnil | hv
        · rw [hmnil] at hcm
          simp [containsKey, dlookup] at hcm
        · exact hv
      refine ⟨nodupKeys_derase hinv.tc_nodup, nodupKeys_derase hinv.utm_nodup, ?_, ?_, ?_, ?_⟩
      · intro t' m' hm'
        by_cases ht' : t' = t
        · subst ht'
          rw [dlookup_derase_self hinv.tc_nodup] at hm'
          cases hm'
        · rw [dlookup_derase_ne _ ht'] at hm'
          exact hinv.room_nodup t' m' hm'
      · intro t' m' hm'
        by_cases ht' : t' = t
        · subst ht'
          rw [dlookup_derase_self hinv.tc_nodup] at hm'
          cases hm'
        · rw [dlookup_derase_ne _ ht'] at hm'
          exact hinv.room_ne t' m' hm'
      · intro u' t' hm'
        by_cases hu' : u' = u
        · subst hu'
          rw [dlookup_derase_self hinv.utm_nodup] at hm'
          cases hm'
        · rw [dlookup_derase_ne _ hu'] at hm'
          exact hinv.trip_ne u' t' hm'
      · intro u' t'
        by_cases hu' : u' = u
        · subst hu'
          rw [dlookup_derase_self hinv.utm_nodup]
          constructor
          · intro h
            cases h
          · rintro ⟨m', hm', hck⟩
            by_cases ht' : t' = t
            · subst ht'
              rw [dlookup_derase_self hinv.tc_nodup] at hm'
              cases hm'
            · rw [dlookup_derase_ne _ ht'] at hm'
              have := (hinv.mem_iff u' t').mpr ⟨m', hm', hck⟩
              rw [hmu] at this
              exact absurd (Option.some.inj this).symm ht'
        · rw [dlookup_derase_ne _ hu']
          by_cases ht' : t' = t
          · subst ht'
            rw [dlookup_derase_self hinv.tc_nodup]
            constructor
            · intro hsome
              obtain ⟨m', hm', hck⟩ := (hinv.mem_iff u' t').mp hsome
              rw [hm] at hm'
              cases hm'
              obtain ⟨v, hv⟩ := hmshape
              rw [hv] at hck
              simp [containsKey, dlookup, Ne.symm hu'] at hck
            · rintro ⟨m', hm', _⟩
              cases hm'
          · rw [dlookup_derase_ne _ ht']
            exact hinv.mem_iff u' t'
    · rw [if_neg hempty]
      have hne : derase u m ≠ [] := by
        intro hc
        rw [hc] at hempty
        simp at hempty
      refine ⟨nodupKeys_dinsert hinv.tc_nodup, nodupKeys_derase hinv.utm_nodup, ?_, ?_, ?_, ?_⟩
      · intro t' m' hm'
        by_cases ht' : t' = t
        · subst ht'
          rw [dlookup_dinsert_self] at hm'
          cases hm'
          exact nodupKeys_derase hmnd
        · rw [dlookup_dinsert_ne _ _ ht'] at hm'
          exact hinv.room_nodup t' m' hm'
      · intro t' m' hm'
        by_cases ht' : t' = t
        · subst ht'
          rw [dlookup_dinsert_self] at hm'
          cases hm'
          exact hne
        · rw [dlookup_dinsert_ne _ _ ht'] at hm'
          exact hinv.room_ne t' m' hm'
      · intro u' t' hm'
        by_cases hu' : u' = u
        · subst hu'
          rw [dlookup_derase_self hinv.utm_nodup] at hm'
          cases hm'
        · rw [dlookup_derase_ne _ hu'] at hm'
          exact hinv.trip_ne u' t' hm'
      · intro u' t'
        by_cases hu' : u' = u
        · subst hu'
          rw [dlookup_derase_self hinv.utm_nodup]
          constructor
          · intro h
            cases h
          · rintro ⟨m', hm', hck⟩
            by_cases ht' : t' = t
            · subst ht'
              rw [dlookup_dinsert_self] at hm'
              cases hm'
              rw [containsKey_derase_self hmnd] at hck
              cases hck
            · rw [dlookup_dinsert_ne _ _ ht'] at hm'
              have := (hinv.mem_iff u' t').mpr ⟨m', hm', hck⟩
              rw [hmu] at this
              exact absurd (Option.some.inj this).symm ht'
        · rw [dlookup_derase_ne _ hu']
          by_cases ht' : t' = t
          · subst ht'
            rw [dlookup_dinsert_self]
            constructor
            · intro hsome
              obtain ⟨m', hm', hck⟩ := (hinv.mem_iff u' t').mp hsome
              rw [hm] at hm'
              cases hm'
              refine ⟨_, rfl, ?_⟩
              rw [containsKey_derase_ne _ hu']
              exact hck
            · rintro ⟨m', hm', hck⟩
              cases hm'
              rw [containsKey_derase_ne _ hu'] at hck
              exact (hinv.mem_iff u' t').mpr ⟨m, hm, hck⟩
          · rw [dlookup_dinsert_ne _ _ ht']
            exact hinv.mem_iff u' t'

theorem filter_eq_singleton {α : Type} {l : List α} {p : α → Bool} {a : α}
    (hnd : l.Nodup) (ha : a ∈ l) (hpa : p a = true)
    (huniq : ∀ b ∈ l, p b = true → b = a) : l.filter p = [a] := by
  induction l with
  | nil => cases ha
  | cons x rest ih =>
    rw [List.nodup_cons] at hnd
    rcases List.mem_cons.mp ha with hax | harest
    · subst hax
      rw [List.filter_cons_of_pos hpa]
      have hrest : rest.filter p = [] := by
        rw [List.filter_eq_nil_iff]
        intro b hb hpb
        exact hnd.1 ((huniq b (List.mem_cons_of_mem _ hb) hpb) ▸ hb)
      rw [hrest]
    · have hpx : p x = false := by
        cases hpx : p x
        · rfl
        · exact absurd ((huniq x (List.mem_cons_self _ _) hpx) ▸ harest) hnd.1
      rw [List.filter_cons_of_neg (by simp [hpx])]
      exact ih hnd.2 harest (fun b hb hpb => huniq b (List.mem_cons_of_mem _ hb) hpb)

theorem inv_registryClaim {cm : ConnectionManager} (hinv : RegistryInv cm) :
    registryClaim cm := by
  constructor
  · intro t
    constructor
    · intro hck
      cases hr : dlookup t cm.trip_connections with
      | none => simp [containsKey, hr] at hck
      | some m => exact ⟨m, rfl, hinv.room_ne t m hr⟩
    · rintro ⟨m, hm, _⟩
      simp [containsKey, hm]
  · intro u
    constructor
    · intro hck
      cases hmu : dlookup u cm.user_trip_mapping with
      | none => simp [containsKey, hmu] at hck
      | some t =>
        obtain ⟨m, hm, hckm⟩ := (hinv.mem_iff u t).mp hmu
        have hmem : (t, m) ∈ cm.trip_connections := dlookup_mem hm
        have hfil : cm.trip_connections.filter (fun p => containsKey u p.2) = [(t, m)] := by
          refine filter_eq_singleton (hinv.tc_nodup.of_map _) hmem hckm ?_
          rintro ⟨t', m'⟩ hmem' hck'
          have hl' : dlookup t' cm.trip_connections = some m' :=
            mem_dlookup hinv.tc_nodup hmem'
          have := (hinv.mem_iff u t').mpr ⟨m', hl', hck'⟩
          rw [hmu] at this
          have ht' : t' = t := (Option.some.inj this).symm
          subst ht'
          rw [hm] at hl'
          rw [Option.some.inj hl']
        simp [memberTrips, hfil]
    · intro hlen
      cases hmu : dlookup u cm.user_trip_mapping with
      | none =>
        exfalso
        have hfil : cm.trip_connections.filter (fun p => containsKey u p.2) = [] := by
          rw [List.filter_eq_nil_iff]
          rintro ⟨t', m'⟩ hmem' hck'
          have hl' : dlookup t' cm.trip_connections = some m' :=
            mem_dlookup hinv.tc_nodup hmem'
          have := (hinv.mem_iff u t').mpr ⟨m', hl', hck'⟩
          rw [hmu] at this
          cases this
        rw [memberTrips, hfil] at hlen
        simp at hlen
      | some t => simp [containsKey, hmu]

theorem goodOps_inv : ∀ (ops : List RegistryOp) (cm : ConnectionManager),
    RegistryInv cm → goodOps cm ops = true → RegistryInv (applyOps ops cm) := by
  intro ops
  induction ops with
  | nil =>
    intro cm h _
    simpa [applyOps] using h
  | cons op rest ih =>
    intro cm hinv hgood
    simp only [goodOps, Bool.and_eq_true] at hgood
    have hstep : RegistryInv (applyOp cm op) := by
      cases op with
      | connect w t u =>
        simp only [goodOp, Bool.and_eq_true, Bool.or_eq_true, decide_eq_true_eq] at hgood
        exact connect_inv hinv w hgood.1.1 hgood.1.2
      | disconnect u => exact disconnect_inv hinv u
    have hshift : applyOps (op :: rest) cm = applyOps rest (applyOp cm op) := rfl
    rw [hshift]
    exact ih _ hstep hgood.2

/-- C1 (as stated, refuted): connecting a user who is already registered to
trip "A" again for a different trip "B" leaves the user in both trips'
member maps while the user has a single `userTrip` entry, so after the
two-connect sequence the user appears in two member maps and the second
invariant fails. -/
theorem registry_invariant_counterexample :
    ¬ registryClaim
        (applyOps [.connect 1 "A" "u", .connect 2 "B" "u"] ConnectionManager.empty) := by
  intro h
  have hb := h.2 "u"
  revert hb
  decide

/-- C1 (amended): for every sequence of connect/disconnect operations from
the empty registry in which each connect uses a non-empty trip identifier
and never re-targets a user currently registered to a different trip, the
settled state satisfies both halves of the spec's invariant: a trip id is a
key of `tripMembers` iff its member map is non-empty, and a user id is a key
of `userTrip` iff the user appears in exactly one trip's member map. -/
theorem registry_invariant_good_sequences (ops : List RegistryOp)
    (hgood : goodOps ConnectionManager.empty ops = true) :
    registryClaim (applyOps ops ConnectionManager.empty) :=
  inv_registryClaim (goodOps_inv ops ConnectionManager.empty registryInv_empty hgood)

/-- Witness for C1 (amended) at a concrete good sequence. -/
theorem registry_invariant_good_sequences_witness :
    registryClaim
      (applyOps [.connect 1 "A" "u", .connect 2 "A" "v", .disconnect "u"]
        ConnectionManager.empty) :=
  registry_invariant_good_sequences
    [.connect 1 "A" "u", .connect 2 "A" "v", .disconnect "u"] (by decide)

/-- C9 (confirmed): if a user registered to trip A is connected again for a
different trip B, the old handle stays in A's member map while `userTrip`
points at B; a subsequent disconnect removes the user from B's member map
and from `userTrip` only, the stale entry in A's member map survives it, and
any further disconnect of that user is a no-op, so the stale handle is never
cleaned up. -/
theorem stale_handle_on_cross_trip_reconnect
    (cm : ConnectionManager) (u A B : String) (h1 h2 : Nat) (mA : List (String × Nat))
    (_hreg : dlookup u cm.user_trip_mapping = some A)
    (hA : dlookup A cm.trip_connections = some mA)
    (hmem : dlookup u mA = some h1)
    (hAB : A ≠ B) (hB : B ≠ "")
    (hnodT : nodupKeys cm.trip_connections)
    (hnodU : nodupKeys cm.user_trip_mapping)
    (hnodB : nodupKeys ((dlookup B cm.trip_connections).getD [])) :
    dlookup u (cm.connect h2 B u).user_trip_mapping = some B ∧
    dlookup A (cm.connect h2 B u).trip_connections = some mA ∧
    dlookup u mA = some h1 ∧
    dlookup A ((cm.connect h2 B u).disconnect u).trip_connections = some mA ∧
    dlookup u ((dlookup B ((cm.connect h2 B u).disconnect u).trip_connections).getD []) =
      none ∧
    dlookup u ((cm.connect h2 B u).disconnect u).user_trip_mapping = none ∧
    ((cm.connect h2 B u).disconnect u).disconnect u = (cm.connect h2 B u).disconnect u := by
  have hutm2 : dlookup u (cm.connect h2 B u).user_trip_mapping = some B := by
    rw [connect_utm_lookup]
    simp
  have htcA2 : dlookup A (cm.connect h2 B u).trip_connections = some mA := by
    rw [connect_tc_lookup, if_neg hAB, hA]
  have htcB2 : dlookup B (cm.connect h2 B u).trip_connections =
      some (dinsert u h2 ((dlookup B cm.trip_connections).getD [])) := by
    rw [connect_tc_lookup, if_pos rfl]
  have hnodB2 : nodupKeys (dinsert u h2 ((dlookup B cm.trip_connections).getD [])) :=
    nodupKeys_dinsert hnodB
  have hnodT2 : nodupKeys (cm.connect h2 B u).trip_connections := by
    unfold ConnectionManager.connect
    by_cases hc : containsKey B cm.trip_connections = true
    · simp only [hc, if_true]
      exact nodupKeys_dinsert hnodT
    · simp only [hc, Bool.false_eq_true, if_false]
      exact nodupKeys_dinsert (nodupKeys_dinsert hnodT)
  have hnodU2 : nodupKeys (cm.connect h2 B u).user_trip_mapping := by
    rw [connect_utm_eq]
    exact nodupKeys_dinsert hnodU
  have hdisc := disconnect_room (cm.connect h2 B u) u B
    (dinsert u h2 ((dlookup B cm.trip_connections).getD [])) hutm2 hB htcB2
  have hutm3 : dlookup u ((cm.connect h2 B u).disconnect u).user_trip_mapping = none := by
    rw [hdisc]
    by_cases hempty : (derase u (dinsert u h2 ((dlookup B cm.trip_connections).getD []))).isEmpty = true
    · rw [if_pos hempty]
      exact dlookup_derase_self hnodU2
    · rw [if_neg hempty]
      exact dlookup_derase_self hnodU2
  refine ⟨hutm2, htcA2, hmem, ?_, ?_, hutm3, disconnect_absent _ u hutm3⟩
  · rw [hdisc]
    by_cases hempty : (derase u (dinsert u h2 ((dlookup B cm.trip_connections).getD []))).isEmpty = true
    · rw [if_pos hempty]
      rw [dlookup_derase_ne _ hAB]
      exact htcA2
    · rw [if_neg hempty]
      rw [dlookup_dinsert_ne _ _ hAB]
      exact htcA2
  · rw [hdisc]
    by_cases hempty : (derase u (dinsert u h2 ((dlookup B cm.trip_connections).getD []))).isEmpty = true
    · rw [if_pos hempty]
      rw [dlookup_derase_self hnodT2]
      simp [dlookup]
    · rw [if_neg hempty]
      rw [dlookup_dinsert_self]
      simp only [Option.getD_some]
      exact dlookup_derase_self hnodB2

/-- Witness for C9 at a concrete registry state. -/
theorem stale_handle_on_cross_trip_reconnect_witness :
    dlookup "u"
        ((applyOps [.connect 1 "A" "u"] ConnectionManager.empty).connect 2 "B" "u").user_trip_mapping =
      some "B" ∧
    dlookup "A"
        ((applyOps [.connect 1 "A" "u"] ConnectionManager.empty).connect 2 "B" "u").trip_connections =
      some [("u", 1)] ∧
    dlookup "u" [("u", 1)] = some 1 ∧
    dlookup "A"
        (((applyOps [.connect 1 "A" "u"] ConnectionManager.empty).connect 2 "B" "u").disconnect
            "u").trip_connections =
      some [("u", 1)] ∧
    dlookup "u"
        ((dlookup "B"
              (((applyOps [.connect 1 "A" "u"] ConnectionManager.empty).connect 2 "B"
                      "u").disconnect
                  "u").trip_connections).getD
          []) =
      none ∧
    dlookup "u"
        (((applyOps [.connect 1 "A" "u"] ConnectionManager.empty).connect 2 "B" "u").disconnect
            "u").user_trip_mapping =
      none ∧
    ((((applyOps [.connect 1 "A" "u"] ConnectionManager.empty).connect 2 "B" "u").disconnect
          "u").disconnect
        "u") =
      (((applyOps [.connect 1 "A" "u"] ConnectionManager.empty).connect 2 "B" "u").disconnect
        "u") :=
  stale_handle_on_cross_trip_reconnect
    (applyOps [.connect 1 "A" "u"] ConnectionManager.empty) "u" "A" "B" 1 2 [("u", 1)]
    (by decide) (by decide) (by decide) (by decide) (by decide)
    (by unfold nodupKeys; decide) (by unfold nodupKeys; decide)
    (by unfold nodupKeys; decide)

/-- C10 (confirmed): broadcasting to a trip id that is not a key of
`tripMembers` returns normally, attempts no sends, and leaves both registry
maps unchanged. -/
theorem broadcast_unknown_trip_noop (cm : ConnectionManager) (message trip_id : String)
    (exclude_user : Option String) (sendOk : String → Nat → Bool)
    (h : dlookup trip_id cm.trip_connections = none) :
    cm.broadcast_to_trip message trip_id exclude_user sendOk = (cm, []) := by
  simp [ConnectionManager.broadcast_to_trip, containsKey, h]

/-- Witness for C10 at a concrete registry state with a different known trip. -/
theorem broadcast_unknown_trip_noop_witness :
    (applyOps [.connect 1 "A" "u"] ConnectionManager.empty).broadcast_to_trip "hello" "B"
        (some "u") (fun _ _ => true) =
      (applyOps [.connect 1 "A" "u"] ConnectionManager.empty, []) :=
  broadcast_unknown_trip_noop (applyOps [.connect 1 "A" "u"] ConnectionManager.empty) "hello"
    "B" (some "u") (fun _ _ => true) (by decide)

theorem filter_ne_of_not_containsKey {e : String} {m : List (String × Nat)}
    (he : containsKey e m = false) :
    m.filter (fun p => decide (some p.1 ≠ some e)) = m := by
  rw [List.filter_eq_self]
  intro p hp
  simp only [decide_eq_true_eq, ne_eq, Option.some.injEq]
  intro hc
  rw [containsKey_eq_false_iff] at he
  have : p.1 ∈ m.map Prod.fst := List.mem_map_of_mem Prod.fst hp
  rw [hc, mem_keys_iff_dlookup, he] at this
  cases this

theorem length_filter_ne {e : String} {m : List (String × Nat)}
    (hnd : nodupKeys m) (he : containsKey e m = true) :
    (m.filter (fun p => decide (some p.1 ≠ some e))).length = m.length - 1 := by
  induction m with
  | nil => simp [containsKey, dlookup] at he
  | cons p rest ih =>
    obtain ⟨k, v⟩ := p
    simp only [nodupKeys, List.map_cons, List.nodup_cons] at hnd
    by_cases hk : k = e
    · subst hk
      rw [List.filter_cons_of_neg (by simp)]
      have hrest : containsKey k rest = false := by
        rw [containsKey_eq_false_iff]
        exact dlookup_eq_none_of_not_mem_keys hnd.1
      rw [filter_ne_of_not_containsKey hrest]
      simp
    · have hrest : containsKey e rest = true := by
        simp only [containsKey, dlookup, if_neg hk] at he
        exact he
      have hpos : 0 < rest.length := by
        cases rest with
        | nil => simp [containsKey, dlookup] at hrest
        | cons q qs => simp
      rw [List.filter_cons_of_pos (by simp [hk])]
      simp only [List.length_cons, ih hnd.2 hrest]
      omega

theorem disconnect_clears_user {cm : ConnectionManager} (hinv : RegistryInv cm)
    (x : String) (t : String) :
    containsKey x ((dlookup t (cm.disconnect x).trip_connections).getD []) = false := by
  have habsent : ∀ (s : ConnectionManager), RegistryInv s →
      dlookup x s.user_trip_mapping = none →
      containsKey x ((dlookup t s.trip_connections).getD []) = false := by
    intro s hs hnone
    cases hr : dlookup t s.trip_connections with
    | none => simp [containsKey, dlookup]
    | some m =>
      simp only [Option.getD_some]
      cases hck : containsKey x m
      · rfl
      · have := (hs.mem_iff x t).mpr ⟨m, hr, hck⟩
        rw [hnone] at this
        cases this
  cases hmu : dlookup x cm.user_trip_mapping with
  | none =>
    rw [disconnect_absent cm x hmu]
    exact habsent cm hinv hmu
  | some t₀ =>
    have ht₀ : t₀ ≠ "" := hinv.trip_ne x t₀ hmu
    obtain ⟨m₀, hm₀, hck₀⟩ := (hinv.mem_iff x t₀).mp hmu
    have hnd₀ : nodupKeys m₀ := hinv.room_nodup t₀ m₀ hm₀
    rw [disconnect_room cm x t₀ m₀ hmu ht₀ hm₀]
    by_cases hempty : (derase x m₀).isEmpty = true
    · rw [if_pos hempty]
      by_cases ht : t = t₀
      · subst ht
        rw [dlookup_derase_self hinv.tc_nodup]
        simp [containsKey, dlookup]
      · rw [dlookup_derase_ne _ ht]
        cases hr : dlookup t cm.trip_connections with
        | none => simp [containsKey, dlookup]
        | some m =>
          simp only [Option.getD_some]
          cases hck : containsKey x m
          · rfl
          · have := (hinv.mem_iff x t).mpr ⟨m, hr, hck⟩
            rw [hmu] at this
            exact absurd (Option.some.inj this).symm ht
    · rw [if_neg hempty]
      by_cases ht : t = t₀
      · subst ht
        rw [dlookup_dinsert_self]
        simp only [Option.getD_some]
        exact containsKey_derase_self hnd₀
      · rw [dlookup_dinsert_ne _ _ ht]
        cases hr : dlookup t cm.trip_connections with
        | none => simp [containsKey, dlookup]
        | some m =>
          simp only [Option.getD_some]
          cases hck : containsKey x m
          · rfl
          · have := (hinv.mem_iff x t).mpr ⟨m, hr, hck⟩
            rw [hmu] at this
            exact absurd (Option.some.inj this).symm ht

theorem disconnect_member_mono {cm : ConnectionManager} (hinv : RegistryInv cm)
    (x y t : String)
    (h : containsKey y ((dlookup t (cm.disconnect x).trip_connections).getD []) = true) :
    containsKey y ((dlookup t cm.trip_connections).getD []) = true := by
  cases hmu : dlookup x cm.user_trip_mapping with
  | none =>
    rw [disconnect_absent cm x hmu] at h
    exact h
  | some t₀ =>
    have ht₀ : t₀ ≠ "" := hinv.trip_ne x t₀ hmu
    obtain ⟨m₀, hm₀, hck₀⟩ := (hinv.mem_iff x t₀).mp hmu
    have hnd₀ : nodupKeys m₀ := hinv.room_nodup t₀ m₀ hm₀
    rw [disconnect_room cm x t₀ m₀ hmu ht₀ hm₀] at h
    by_cases hempty : (derase x m₀).isEmpty = true
    · rw [if_pos hempty] at h
      by_cases ht : t = t₀
      · subst ht
        rw [dlookup_derase_self hinv.tc_nodup] at h
        simp [containsKey, dlookup] at h
      · rw [dlookup_derase_ne _ ht] at h
        exact h
    · rw [if_neg hempty] at h
      by_cases ht : t = t₀
      · subst ht
        rw [dlookup_dinsert_self] at h
        simp only [Option.getD_some] at h
        rw [hm₀]
        simp only [Option.getD_some]
        by_cases hyx : y = x
        · subst hyx
          rw [containsKey_derase_self hnd₀] at h
          cases h
        · rw [containsKey_derase_ne _ hyx] at h
          exact h
      · rw [dlookup_dinsert_ne _ _ ht] at h
        exact h

theorem foldl_disconnect_inv {cm : ConnectionManager} (hinv : RegistryInv cm)
    (F : List String) :
    RegistryInv (F.foldl (fun s u => s.disconnect u) cm) := by
  induction F generalizing cm with
  | nil => exact hinv
  | cons x rest ih => exact ih (disconnect_inv hinv x)

theorem foldl_disconnect_mono {cm : ConnectionManager} (hinv : RegistryInv cm)
    (F : List String) (y t : String)
    (h : containsKey y
        ((dlookup t (F.foldl (fun s u => s.disconnect u) cm).trip_connections).getD []) =
      true) :
    containsKey y ((dlookup t cm.trip_connections).getD []) = true := by
  induction F generalizing cm with
  | nil => exact h
  | cons x rest ih =>
    exact disconnect_member_mono hinv x y t (ih (disconnect_inv hinv x) h)

theorem foldl_disconnect_clears {cm : ConnectionManager} (hinv : RegistryInv cm)
    (F : List String) (t : String) :
    ∀ x ∈ F,
      containsKey x
          ((dlookup t (F.foldl (fun s u => s.disconnect u) cm).trip_connections).getD []) =
        false := by
  induction F generalizing cm with
  | nil => intro x hx; cases hx
  | cons z rest ih =>
    intro x hx
    have hinv1 : RegistryInv (cm.disconnect z) := disconnect_inv hinv z
    rcases List.mem_cons.mp hx with hxz | hxrest
    · subst hxz
      have hshift : (x :: rest).foldl (fun s u => s.disconnect u) cm =
          rest.foldl (fun s u => s.disconnect u) (cm.disconnect x) := rfl
      rw [hshift]
      cases hfin : containsKey x
          ((dlookup t
              (rest.foldl (fun s u => s.disconnect u) (cm.disconnect x)).trip_connections).getD
            []) with
      | false => rfl
      | true =>
        have hstep : containsKey x ((dlookup t (cm.disconnect x).trip_connections).getD []) =
            true :=
          foldl_disconnect_mono hinv1 rest x t hfin
        rw [disconnect_clears_user hinv x t] at hstep
        cases hstep
    · exact ih hinv1 x hxrest

/-- C4 (as stated, refuted): in the reachable state produced by connecting
users "u" and "v" to the trip whose identifier is the empty string, a
broadcast in which "v"'s send raises does not remove "v": `disconnect`'s
falsy guard `if not trip_id` treats the popped empty-string trip id like an
absent entry and returns before touching the member map, so "v" still
appears in a subsequent participant listing. -/
theorem broadcast_failed_not_removed_counterexample :
    ("v", 2) ∈
        ((applyOps [.connect 1 "" "u", .connect 2 "" "v"]
              ConnectionManager.empty).broadcast_to_trip "msg" "" (some "u")
            (fun uid _ => uid != "v")).2 ∧
      (("v" : String) != "v") = false ∧
        "v" ∈
          (((applyOps [.connect 1 "" "u", .connect 2 "" "v"]
                  ConnectionManager.empty).broadcast_to_trip "msg" "" (some "u")
                (fun uid _ => uid != "v")).1.get_trip_participants "") := by
  decide

/-- C4 (amended): in a well-formed registry state (`RegistryInv`, which all
good operation sequences preserve), broadcasting to a trip with N registered
participants while excluding a sender who is one of them attempts delivery
to exactly the N-1 member handles other than the sender, and every attempted
handle whose send raises is removed by the end of the call and does not
appear in a subsequent participant listing for that trip. -/
theorem broadcast_excludes_sender_and_removes_failed
    (cm : ConnectionManager) (message trip_id exclude : String)
    (sendOk : String → Nat → Bool) (room : List (String × Nat))
    (hinv : RegistryInv cm)
    (hroom : dlookup trip_id cm.trip_connections = some room)
    (hexcl : containsKey exclude room = true) :
    ((cm.broadcast_to_trip message trip_id (some exclude) sendOk).2).length =
        room.length - 1 ∧
      (∀ p : String × Nat,
          p ∈ (cm.broadcast_to_trip message trip_id (some exclude) sendOk).2 ↔
            p ∈ room ∧ p.1 ≠ exclude) ∧
        ∀ p ∈ (cm.broadcast_to_trip message trip_id (some exclude) sendOk).2,
          sendOk p.1 p.2 = false →
            p.1 ∉
              ((cm.broadcast_to_trip message trip_id (some exclude)
                    sendOk).1.get_trip_participants trip_id) := by
  have hbr : cm.broadcast_to_trip message trip_id (some exclude) sendOk =
      ((((room.filter (fun p => decide (some p.1 ≠ some exclude))).filter
              (fun p => !(sendOk p.1 p.2))).map Prod.fst).foldl
          (fun s u => s.disconnect u) cm,
        room.filter (fun p => decide (some p.1 ≠ some exclude))) := by
    simp [ConnectionManager.broadcast_to_trip, containsKey, hroom]
  rw [hbr]
  refine ⟨?_, ?_, ?_⟩
  · exact length_filter_ne (hinv.room_nodup trip_id room hroom) hexcl
  · intro p
    rw [List.mem_filter]
    simp
  · intro p hp hfail
    have hpF : p.1 ∈
        ((room.filter (fun p => decide (some p.1 ≠ some exclude))).filter
            (fun p => !(sendOk p.1 p.2))).map Prod.fst :=
      List.mem_map_of_mem Prod.fst (List.mem_filter.mpr ⟨hp, by simp [hfail]⟩)
    have hclear := foldl_disconnect_clears hinv
      (((room.filter (fun p => decide (some p.1 ≠ some exclude))).filter
          (fun p => !(sendOk p.1 p.2))).map Prod.fst) trip_id p.1 hpF
    intro hmem
    simp only [ConnectionManager.get_trip_participants] at hmem
    rw [mem_keys_iff_dlookup] at hmem
    simp only [containsKey] at hclear
    rw [hclear] at hmem
    cases hmem

/-- Witness for C4 (amended) at a concrete well-formed three-member trip in
which the excluded sender is "u" and "v"'s send raises. -/
theorem broadcast_excludes_sender_and_removes_failed_witness :
    (((applyOps [.connect 1 "T" "u", .connect 2 "T" "v", .connect 3 "T" "w"]
              ConnectionManager.empty).broadcast_to_trip "msg" "T" (some "u")
          (fun uid _ => uid != "v")).2).length =
        ([(("u" : String), (1 : Nat)), ("v", 2), ("w", 3)]).length - 1 ∧
      (∀ p : String × Nat,
          p ∈
              ((applyOps [.connect 1 "T" "u", .connect 2 "T" "v", .connect 3 "T" "w"]
                      ConnectionManager.empty).broadcast_to_trip "msg" "T" (some "u")
                  (fun uid _ => uid != "v")).2 ↔
            p ∈ [(("u" : String), (1 : Nat)), ("v", 2), ("w", 3)] ∧ p.1 ≠ "u") ∧
        ∀ p ∈
            ((applyOps [.connect 1 "T" "u", .connect 2 "T" "v", .connect 3 "T" "w"]
                    ConnectionManager.empty).broadcast_to_trip "msg" "T" (some "u")
                (fun uid _ => uid != "v")).2,
          (fun (uid : String) (_ : Nat) => uid != "v") p.1 p.2 = false →
            p.1 ∉
              (((applyOps [.connect 1 "T" "u", .connect 2 "T" "v", .connect 3 "T" "w"]
                        ConnectionManager.empty).broadcast_to_trip "msg" "T" (some "u")
                    (fun uid _ => uid != "v")).1.get_trip_participants "T") :=
  broadcast_excludes_sender_and_removes_failed
    (applyOps [.connect 1 "T" "u", .connect 2 "T" "v", .connect 3 "T" "w"]
      ConnectionManager.empty)
    "msg" "T" "u" (fun uid _ => uid != "v") [("u", 1), ("v", 2), ("w", 3)]
    (goodOps_inv [.connect 1 "T" "u", .connect 2 "T" "v", .connect 3 "T" "w"]
      ConnectionManager.empty registryInv_empty (by decide))
    (by decide) (by decide)

theorem fallback_branch_notifications (env : AlertEnv) (e : String)
    (notifs : List NotificationCall) (a : Bool) :
    (fallback_branch env e notifs a).notifications = notifs ++ [.basic] := by
  unfold fallback_branch
  cases env.sendBasicCall with
  | error fe => rfl
  | ok u =>
    cases env.commitFallbackCall with
    | error fe => rfl
    | ok v => rfl

theorem fallback_branch_persisted (env : AlertEnv) (e : String)
    (notifs : List NotificationCall) (a : Bool) :
    ∀ r ∈ (fallback_branch env e notifs a).persisted,
      r = ⟨"", "AI processing unavailable", env.contacts.length, "fallback", some e⟩ := by
  unfold fallback_branch
  cases env.sendBasicCall with
  | error fe => intro r hr; cases hr
  | ok u =>
    cases env.commitFallbackCall with
    | error fe => intro r hr; cases hr
    | ok v =>
      intro r hr
      rcases List.mem_singleton.mp hr with rfl
      rfl

theorem fallback_branch_success (env : AlertEnv) (e : String)
    (notifs : List NotificationCall) (a : Bool)
    (hb : env.sendBasicCall = .ok ()) (hc : env.commitFallbackCall = .ok ()) :
    (fallback_branch env e notifs a).outcome = .ok "fallback" ∧
      (fallback_branch env e notifs a).persisted =
        [⟨"", "AI processing unavailable", env.contacts.length, "fallback", some e⟩] := by
  unfold fallback_branch
  rw [hb, hc]
  exact ⟨rfl, rfl⟩

theorem fallback_branch_failure (env : AlertEnv) (e : String)
    (notifs : List NotificationCall) (a : Bool) :
    exceptFailed (fallback_branch env e notifs a).outcome =
        (exceptFailed env.sendBasicCall || exceptFailed env.commitFallbackCall) ∧
      (exceptFailed (fallback_branch env e notifs a).outcome = true →
        (fallback_branch env e notifs a).persisted = []) := by
  unfold fallback_branch
  cases env.sendBasicCall with
  | error fe => exact ⟨rfl, fun _ => rfl⟩
  | ok u =>
    cases env.commitFallbackCall with
    | error fe => exact ⟨rfl, fun _ => rfl⟩
    | ok v => exact ⟨rfl, fun h => by cases h⟩

/-- C5 (confirmed): with an empty emergency-contact list the pipeline raises
the "No emergency contacts configured" error at once: no transcriber call,
no analyzer call, no notification call of either kind, and no persisted
Alert record. -/
theorem no_contacts_fails_immediately (env : AlertEnv) (h : env.contacts = []) :
    process_emergency_alert env =
      ⟨.error "No emergency contacts configured", [], [], false, false⟩ := by
  simp [process_emergency_alert, h]

/-- Witness for C5 at a concrete environment whose collaborators would all
succeed if called. -/
theorem no_contacts_fails_immediately_witness :
    process_emergency_alert ⟨[], .ok "ignored", .ok "ignored", .ok (), .ok (), .ok (), .ok ()⟩ =
      ⟨.error "No emergency contacts configured", [], [], false, false⟩ :=
  no_contacts_fails_immediately
    ⟨[], .ok "ignored", .ok "ignored", .ok (), .ok (), .ok (), .ok ()⟩ rfl

/-- C7 (confirmed): for a transcript that strips to the empty string the
analyzer returns the fixed unclear-situation summary without making the
external chat call. -/
theorem blank_transcript_skips_analyzer (call : Except PyError String) (t : String)
    (h : pyStrip t = "") :
    analyze_emergency_transcript call t =
      (Except.ok "The situation is unclear from the audio.", false) := by
  unfold analyze_emergency_transcript
  rw [if_pos (Or.inr h)]

/-- Witness for C7 at a whitespace-only transcript with a model outcome that
would return a different summary if consulted. -/
theorem blank_transcript_skips_analyzer_witness :
    analyze_emergency_transcript (.ok "model reply") "  " =
      (Except.ok "The situation is unclear from the audio.", false) :=
  blank_transcript_skips_analyzer (.ok "model reply") "  " (by decide)

/-- C6 (confirmed): when the transcriber raises, the run makes exactly one
notification call — the basic `send_fallback_alert`, never the rich one —
and any persisted Alert record has status `fallback`, an empty transcript
and the triggering error's description in `error_details`; when the
fallback send and commit succeed, exactly that record is persisted. -/
theorem transcriber_failure_single_basic_notification (env : AlertEnv) (e : String)
    (hc : env.contacts ≠ []) (ht : transcribe_audio env.transcribeCall = .error e) :
    (process_emergency_alert env).notifications = [NotificationCall.basic] ∧
      (∀ r ∈ (process_emergency_alert env).persisted,
          r.processing_status = "fallback" ∧ r.transcript = "" ∧
            r.error_details = some e) ∧
        (env.sendBasicCall = .ok () → env.commitFallbackCall = .ok () →
          (process_emergency_alert env).persisted =
            [⟨"", "AI processing unavailable", env.contacts.length, "fallback", some e⟩]) := by
  have heq : process_emergency_alert env = fallback_branch env e [] false := by
    simp only [process_emergency_alert, if_neg hc, ht]
  rw [heq]
  refine ⟨?_, ?_, ?_⟩
  · rw [fallback_branch_notifications]
    rfl
  · intro r hr
    rw [fallback_branch_persisted env e [] false r hr]
    exact ⟨rfl, rfl, rfl⟩
  · intro hb hcf
    exact (fallback_branch_success env e [] false hb hcf).2

/-- Witness for C6 at a concrete environment whose transcriber times out. -/
theorem transcriber_failure_single_basic_notification_witness :
    (process_emergency_alert
          ⟨["c@x", "d@x"], .error .timeoutExc, .ok "ignored", .ok (), .ok (), .ok (),
            .ok ()⟩).notifications =
        [NotificationCall.basic] ∧
      (∀ r ∈ (process_emergency_alert
            ⟨["c@x", "d@x"], .error .timeoutExc, .ok "ignored", .ok (), .ok (), .ok (),
              .ok ()⟩).persisted,
          r.processing_status = "fallback" ∧ r.transcript = "" ∧
            r.error_details = some "Audio transcription timed out") ∧
        ((⟨["c@x", "d@x"], .error .timeoutExc, .ok "ignored", .ok (), .ok (), .ok (),
              .ok ()⟩ : AlertEnv).sendBasicCall = .ok () →
          (⟨["c@x", "d@x"], .error .timeoutExc, .ok "ignored", .ok (), .ok (), .ok (),
              .ok ()⟩ : AlertEnv).commitFallbackCall = .ok () →
          (process_emergency_alert
              ⟨["c@x", "d@x"], .error .timeoutExc, .ok "ignored", .ok (), .ok (), .ok (),
                .ok ()⟩).persisted =
            [⟨"", "AI processing unavailable",
                (⟨["c@x", "d@x"], .error .timeoutExc, .ok "ignored", .ok (), .ok (), .ok (),
                    .ok ()⟩ : AlertEnv).contacts.length, "fallback",
                some "Audio transcription timed out"⟩]) :=
  transcriber_failure_single_basic_notification
    ⟨["c@x", "d@x"], .error .timeoutExc, .ok "ignored", .ok (), .ok (), .ok (), .ok ()⟩
    "Audio transcription timed out" (by simp) rfl

theorem fallback_branch_ok_persisted (env : AlertEnv) (e : String)
    (notifs : List NotificationCall) (a : Bool)
    (h : exceptFailed (fallback_branch env e notifs a).outcome = false) :
    (fallback_branch env e notifs a).persisted =
      [⟨"", "AI processing unavailable", env.contacts.length, "fallback", some e⟩] := by
  cases hsb : env.sendBasicCall with
  | error fe =>
    have hfa := (fallback_branch_failure env e notifs a).1
    rw [h, hsb] at hfa
    simp [exceptFailed] at hfa
  | ok u =>
    cases hcf : env.commitFallbackCall with
    | error fe =>
      have hfa := (fallback_branch_failure env e notifs a).1
      rw [h, hsb, hcf] at hfa
      simp [exceptFailed] at hfa
    | ok v =>
      have hu : env.sendBasicCall = .ok () := by rw [hsb]
      have hv : env.commitFallbackCall = .ok () := by rw [hcf]
      exact (fallback_branch_success env e notifs a hu hv).2

/-- C2 (as stated, refuted): with steps 1–3 all succeeding and only the
success-record commit (step 4) raising, the `except` wrapped around the
whole `try` block enters the fallback path, so the contacts receive a
second, basic notification and the outcome is `fallback`, not success. -/
theorem step4_failure_sends_second_notification_counterexample :
    transcribe_audio
        (⟨["c"], .ok "help me", .ok "Danger.", .ok (), .error "db down", .ok (), .ok ()⟩ :
          AlertEnv).transcribeCall = .ok "help me" ∧
      (analyze_emergency_transcript
            (⟨["c"], .ok "help me", .ok "Danger.", .ok (), .error "db down", .ok (),
                .ok ()⟩ :
              AlertEnv).analyzeCall "help me").1 = .ok "Danger." ∧
        (⟨["c"], .ok "help me", .ok "Danger.", .ok (), .error "db down", .ok (), .ok ()⟩ :
            AlertEnv).sendRichCall = .ok () ∧
          (process_emergency_alert
              ⟨["c"], .ok "help me", .ok "Danger.", .ok (), .error "db down", .ok (),
                .ok ()⟩).notifications =
            [NotificationCall.rich, NotificationCall.basic] ∧
            (process_emergency_alert
                ⟨["c"], .ok "help me", .ok "Danger.", .ok (), .error "db down", .ok (),
                  .ok ()⟩).outcome = Except.ok "fallback" :=
  ⟨rfl, rfl, rfl, rfl, rfl⟩

/-- C2 (amended): with a non-empty contact list, the run makes no basic
(fallback) notification call exactly when all four steps of the try block —
transcription, analysis, rich notification, and the success-record commit —
succeed; in that case the outcome is success with one persisted
status-`success` record and only the rich notification. A failure of step 4
therefore does enter the fallback path and causes a second notification. -/
theorem fallback_iff_primary_step_raises (env : AlertEnv) (h : env.contacts ≠ []) :
    (NotificationCall.basic ∉ (process_emergency_alert env).notifications ↔
        primary_steps_ok env) ∧
      (primary_steps_ok env →
        (process_emergency_alert env).outcome = Except.ok "success" ∧
          (process_emergency_alert env).notifications = [NotificationCall.rich] ∧
            (process_emergency_alert env).persisted.length = 1 ∧
              ∀ r ∈ (process_emergency_alert env).persisted,
                r.processing_status = "success") := by
  cases ht : transcribe_audio env.transcribeCall with
  | error e =>
    have heq : process_emergency_alert env = fallback_branch env e [] false := by
      simp only [process_emergency_alert, if_neg h, ht]
    have hb : NotificationCall.basic ∈ (process_emergency_alert env).notifications := by
      rw [heq, fallback_branch_notifications]
      simp
    have hnp : ¬ primary_steps_ok env := by
      rintro ⟨t, a, hta, -, -, -⟩
      rw [ht] at hta
      cases hta
    exact ⟨⟨fun habs => absurd hb habs, fun hp => absurd hp hnp⟩, fun hp => absurd hp hnp⟩
  | ok transcript =>
    cases ha : (analyze_emergency_transcript env.analyzeCall transcript).1 with
    | error e =>
      have heq : process_emergency_alert env =
          fallback_branch env e []
            (analyze_emergency_transcript env.analyzeCall transcript).2 := by
        simp only [process_emergency_alert, if_neg h, ht, ha]
      have hb : NotificationCall.basic ∈ (process_emergency_alert env).notifications := by
        rw [heq, fallback_branch_notifications]
        simp
      have hnp : ¬ primary_steps_ok env := by
        rintro ⟨t, a, hta, haa, -, -⟩
        rw [ht] at hta
        injection hta with h2
        subst h2
        rw [ha] at haa
        cases haa
      exact ⟨⟨fun habs => absurd hb habs, fun hp => absurd hp hnp⟩, fun hp => absurd hp hnp⟩
    | ok ai =>
      cases hr : env.sendRichCall with
      | error e =>
        have heq : process_emergency_alert env =
            fallback_branch env e [.rich]
              (analyze_emergency_transcript env.analyzeCall transcript).2 := by
          simp only [process_emergency_alert, if_neg h, ht, ha, hr]
        have hb : NotificationCall.basic ∈ (process_emergency_alert env).notifications := by
          rw [heq, fallback_branch_notifications]
          simp
        have hnp : ¬ primary_steps_ok env := by
          rintro ⟨t, a, -, -, hra, -⟩
          rw [hr] at hra
          cases hra
        exact ⟨⟨fun habs => absurd hb habs, fun hp => absurd hp hnp⟩, fun hp => absurd hp hnp⟩
      | ok u =>
        cases hcs : env.commitSuccessCall with
        | error e =>
          have heq : process_emergency_alert env =
              fallback_branch env e [.rich]
                (analyze_emergency_transcript env.analyzeCall transcript).2 := by
            simp only [process_emergency_alert, if_neg h, ht, ha, hr, hcs]
          have hb : NotificationCall.basic ∈ (process_emergency_alert env).notifications := by
            rw [heq, fallback_branch_notifications]
            simp
          have hnp : ¬ primary_steps_ok env := by
            rintro ⟨t, a, -, -, -, hcsa⟩
            rw [hcs] at hcsa
            cases hcsa
          exact ⟨⟨fun habs => absurd hb habs, fun hp => absurd hp hnp⟩,
            fun hp => absurd hp hnp⟩
        | ok v =>
          have heq : process_emergency_alert env =
              ⟨.ok "success", [.rich],
                [⟨transcript, ai, env.contacts.length, "success", none⟩], true,
                (analyze_emergency_transcript env.analyzeCall transcript).2⟩ := by
            simp only [process_emergency_alert, if_neg h, ht, ha, hr, hcs]
          have hp : primary_steps_ok env :=
            ⟨transcript, ai, ht, ha, by rw [hr], by rw [hcs]⟩
          refine ⟨⟨fun _ => hp, fun _ => ?_⟩, fun _ => ⟨?_, ?_, ?_, ?_⟩⟩
          · rw [heq]
            simp
          · rw [heq]
          · rw [heq]
          · rw [heq]
            rfl
          · rw [heq]
            intro r hrr
            rcases List.mem_singleton.mp hrr with rfl
            rfl

/-- Witness for C2 (amended) at a concrete environment in which every
collaborator succeeds. -/
theorem fallback_iff_primary_step_raises_witness :
    (NotificationCall.basic ∉
          (process_emergency_alert
              ⟨["c"], .ok "help", .ok "A robbery.", .ok (), .ok (), .ok (),
                .ok ()⟩).notifications ↔
        primary_steps_ok
          ⟨["c"], .ok "help", .ok "A robbery.", .ok (), .ok (), .ok (), .ok ()⟩) ∧
      (primary_steps_ok
          ⟨["c"], .ok "help", .ok "A robbery.", .ok (), .ok (), .ok (), .ok ()⟩ →
        (process_emergency_alert
            ⟨["c"], .ok "help", .ok "A robbery.", .ok (), .ok (), .ok (),
              .ok ()⟩).outcome = Except.ok "success" ∧
          (process_emergency_alert
              ⟨["c"], .ok "help", .ok "A robbery.", .ok (), .ok (), .ok (),
                .ok ()⟩).notifications = [NotificationCall.rich] ∧
            (process_emergency_alert
                ⟨["c"], .ok "help", .ok "A robbery.", .ok (), .ok (), .ok (),
                  .ok ()⟩).persisted.length = 1 ∧
              ∀ r ∈ (process_emergency_alert
                  ⟨["c"], .ok "help", .ok "A robbery.", .ok (), .ok (), .ok (),
                    .ok ()⟩).persisted,
                r.processing_status = "success") :=
  fallback_iff_primary_step_raises
    ⟨["c"], .ok "help", .ok "A robbery.", .ok (), .ok (), .ok (), .ok ()⟩ (by simp)

/-- C3 (as stated, refuted): when the transcriber raises, the fallback
notification succeeds, but committing the fallback record raises, the inner
`except` still raises `AlertProcessingError` — the catastrophic path is
entered and nothing is persisted even though the fallback notification did
not throw, so "if and only if the fallback notification itself throws" is
too narrow. -/
theorem fallback_persist_failure_also_raises_counterexample :
    (⟨["c"], .error (.otherExc "openai down"), .ok "x", .ok (), .ok (), .ok (),
          .error "disk full"⟩ :
        AlertEnv).sendBasicCall = .ok () ∧
      exceptFailed
          (process_emergency_alert
              ⟨["c"], .error (.otherExc "openai down"), .ok "x", .ok (), .ok (), .ok (),
                .error "disk full"⟩).outcome = true ∧
        (process_emergency_alert
            ⟨["c"], .error (.otherExc "openai down"), .ok "x", .ok (), .ok (), .ok (),
              .error "disk full"⟩).persisted = [] :=
  ⟨rfl, rfl, rfl⟩

/-- C3 (amended): with a non-empty contact list, the pipeline raises iff the
fallback path is entered (some step 1–4 threw) and the fallback notification
or the fallback-record commit itself throws; on that catastrophic path no
Alert record is persisted, and every non-raising invocation persists exactly
one Alert record. -/
theorem catastrophic_iff_fallback_send_or_persist_raises (env : AlertEnv)
    (h : env.contacts ≠ []) :
    (exceptFailed (process_emergency_alert env).outcome = true ↔
        ¬ primary_steps_ok env ∧
          (exceptFailed env.sendBasicCall = true ∨
            exceptFailed env.commitFallbackCall = true)) ∧
      (exceptFailed (process_emergency_alert env).outcome = true →
        (process_emergency_alert env).persisted = []) ∧
        (exceptFailed (process_emergency_alert env).outcome = false →
          (process_emergency_alert env).persisted.length = 1) := by
  cases ht : transcribe_audio env.transcribeCall with
  | error e =>
    have heq : process_emergency_alert env = fallback_branch env e [] false := by
      simp only [process_emergency_alert, if_neg h, ht]
    have hnp : ¬ primary_steps_ok env := by
      rintro ⟨t, a, hta, -, -, -⟩
      rw [ht] at hta
      cases hta
    rw [heq]
    obtain ⟨hfo, hfp⟩ := fallback_branch_failure env e [] false
    refine ⟨?_, hfp, ?_⟩
    · rw [hfo]
      simp [hnp, exceptFailed, Bool.or_eq_true]
    · intro hok
      rw [fallback_branch_ok_persisted env e [] false hok]
      rfl
  | ok transcript =>
    cases ha : (analyze_emergency_transcript env.analyzeCall transcript).1 with
    | error e =>
      have heq : process_emergency_alert env =
          fallback_branch env e []
            (analyze_emergency_transcript env.analyzeCall transcript).2 := by
        simp only [process_emergency_alert, if_neg h, ht, ha]
      have hnp : ¬ primary_steps_ok env := by
        rintro ⟨t, a, hta, haa, -, -⟩
        rw [ht] at hta
        injection hta with h2
        subst h2
        rw [ha] at haa
        cases haa
      rw [heq]
      obtain ⟨hfo, hfp⟩ := fallback_branch_failure env e []
        (analyze_emergency_transcript env.analyzeCall transcript).2
      refine ⟨?_, hfp, ?_⟩
      · rw [hfo]
        simp [hnp, exceptFailed, Bool.or_eq_true]
      · intro hok
        rw [fallback_branch_ok_persisted env e []
          (analyze_emergency_transcript env.analyzeCall transcript).2 hok]
        rfl
    | ok ai =>
      cases hr : env.sendRichCall with
      | error e =>
        have heq : process_emergency_alert env =
            fallback_branch env e [.rich]
              (analyze_emergency_transcript env.analyzeCall transcript).2 := by
          simp only [process_emergency_alert, if_neg h, ht, ha, hr]
        have hnp : ¬ primary_steps_ok env := by
          rintro ⟨t, a, -, -, hra, -⟩
          rw [hr] at hra
          cases hra
        rw [heq]
        obtain ⟨hfo, hfp⟩ := fallback_branch_failure env e [.rich]
          (analyze_emergency_transcript env.analyzeCall transcript).2
        refine ⟨?_, hfp, ?_⟩
        · rw [hfo]
          simp [hnp, exceptFailed, Bool.or_eq_true]
        · intro hok
          rw [fallback_branch_ok_persisted env e [.rich]
            (analyze_emergency_transcript env.analyzeCall transcript).2 hok]
          rfl
      | ok u =>
        cases hcs : env.commitSuccessCall with
        | error e =>
          have heq : process_emergency_alert env =
              fallback_branch env e [.rich]
                (analyze_emergency_transcript env.analyzeCall transcript).2 := by
            simp only [process_emergency_alert, if_neg h, ht, ha, hr, hcs]
          have hnp : ¬ primary_steps_ok env := by
            rintro ⟨t, a, -, -, -, hcsa⟩
            rw [hcs] at hcsa
            cases hcsa
          rw [heq]
          obtain ⟨hfo, hfp⟩ := fallback_branch_failure env e [.rich]
            (analyze_emergency_transcript env.analyzeCall transcript).2
          refine ⟨?_, hfp, ?_⟩
          · rw [hfo]
            simp [hnp, exceptFailed, Bool.or_eq_true]
          · intro hok
            rw [fallback_branch_ok_persisted env e [.rich]
              (analyze_emergency_transcript env.analyzeCall transcript).2 hok]
            rfl
        | ok v =>
          have heq : process_emergency_alert env =
              ⟨.ok "success", [.rich],
                [⟨transcript, ai, env.contacts.length, "success", none⟩], true,
                (analyze_emergency_transcript env.analyzeCall transcript).2⟩ := by
            simp only [process_emergency_alert, if_neg h, ht, ha, hr, hcs]
          have hp : primary_steps_ok env :=
            ⟨transcript, ai, ht, ha, by rw [hr], by rw [hcs]⟩
          rw [heq]
          refine ⟨?_, ?_, ?_⟩
          · simp [exceptFailed, hp]
          · intro habs
            simp [exceptFailed] at habs
          · intro _
            rfl

/-- Witness for C3 (amended) at a concrete environment whose transcriber
raises and whose fallback send raises too (the genuine catastrophic path). -/
theorem catastrophic_iff_fallback_send_or_persist_raises_witness :
    (exceptFailed
          (process_emergency_alert
              ⟨["c"], .error .timeoutExc, .ok "x", .ok (), .ok (), .error "smtp down",
                .ok ()⟩).outcome = true ↔
        ¬ primary_steps_ok
            ⟨["c"], .error .timeoutExc, .ok "x", .ok (), .ok (), .error "smtp down",
              .ok ()⟩ ∧
          (exceptFailed
              (⟨["c"], .error .timeoutExc, .ok "x", .ok (), .ok (), .error "smtp down",
                  .ok ()⟩ :
                AlertEnv).sendBasicCall = true ∨
            exceptFailed
                (⟨["c"], .error .timeoutExc, .ok "x", .ok (), .ok (), .error "smtp down",
                    .ok ()⟩ :
                  AlertEnv).commitFallbackCall = true)) ∧
      (exceptFailed
            (process_emergency_alert
                ⟨["c"], .error .timeoutExc, .ok "x", .ok (), .ok (), .error "smtp down",
                  .ok ()⟩).outcome = true →
        (process_emergency_alert
            ⟨["c"], .error .timeoutExc, .ok "x", .ok (), .ok (), .error "smtp down",
              .ok ()⟩).persisted = []) ∧
        (exceptFailed
              (process_emergency_alert
                  ⟨["c"], .error .timeoutExc, .ok "x", .ok (), .ok (), .error "smtp down",
                    .ok ()⟩).outcome = false →
          (process_emergency_alert
              ⟨["c"], .error .timeoutExc, .ok "x", .ok (), .ok (), .error "smtp down",
                .ok ()⟩).persisted.length = 1) :=
  catastrophic_iff_fallback_send_or_persist_raises
    ⟨["c"], .error .timeoutExc, .ok "x", .ok (), .ok (), .error "smtp down", .ok ()⟩
    (by simp)

/-- C8 (confirmed): a malformed (non-JSON) message received in the Joined
state produces exactly one structured error reply, with error field
"Invalid JSON format", and the connection is not torn down: the loop keeps
processing all later messages, so its output factors around the malformed
message. -/
theorem malformed_json_single_error_and_loop_continues (pre post : List Received) :
    message_loop (pre ++ .notJson :: post) =
      message_loop pre ++
        ⟨MessageTypeError, "Invalid JSON format"⟩ :: message_loop post := by
  induction pre with
  | nil => simp [message_loop, message_loop_body]
  | cons msg rest ih =>
    simp only [List.cons_append, message_loop, List.append_eq]
    rw [ih]
    cases msg with
    | notJson => simp [message_loop_body]
    | jsonMsg mt valid =>
      by_cases hmt : mt = some MessageTypeLocationUpdate
      · by_cases hv : valid = true
        · simp [message_loop_body, hmt, hv]
        · simp only [Bool.not_eq_true] at hv
          simp [message_loop_body, hmt, hv]
      · simp [message_loop_body, hmt]
